import Mathlib

/-
Verification of the SUAVE segmented-wing planform computation
(`SUAVE/Methods/Geometry/Two_Dimensional/Planform/wing_segmented_planform.py`).

The Python function reads `wing.chords.root`, `wing.spans.projected`,
`wing.symmetric` and the ordered segment list, and writes the derived
planform fields back onto the wing record.  The embedding below models the
numpy arrays as functions of a panel index: for a wing of N segments there
are N-1 panels, and every per-panel array of the source becomes a function
`Wing → ℕ → ℝ` whose values at indices below N-1 are the array entries.
Machine floats are modelled by real numbers; the source's NaN-substitution
branch for untapered panels (`integral[np.isnan(integral)] = ...`) is
modelled by the test `B = 0`, which for strictly increasing span fractions
is exactly the condition under which the closed form is indeterminate.
-/

namespace Planform

/-- One spanwise wing segment, mirroring the fields that
`wing_segmented_planform` reads from each `wing.Segments` entry. -/
structure Segment where
  percent_span_location : ℝ
  twist : ℝ
  root_chord_percent : ℝ
  quarter_chord_sweep : ℝ
  thickness_to_chord : ℝ
  dihedral_outboard : ℝ

instance : Inhabited Segment := ⟨⟨0, 0, 0, 0, 0, 0⟩⟩

/-- The wing record: input fields read by the computation followed by the
output fields it writes.  `AR` is `wing.aspect_ratio`, `span_total` is
`wing.spans.total`, the chord fields are the members of `wing.chords`. -/
structure Wing where
  root_chord : ℝ
  projected_span : ℝ
  symmetric : Bool
  segments : List Segment
  reference_area : ℝ
  wetted_area : ℝ
  AR : ℝ
  span_total : ℝ
  mean_geometric_chord : ℝ
  mean_aerodynamic_chord : ℝ
  tip_chord : ℝ
  taper : ℝ
  quarter_chord_sweep : ℝ
  leading_edge_sweep : ℝ
  thickness_to_chord : ℝ
  aerodynamic_center : ℝ × ℝ × ℝ
  total_length : ℝ

noncomputable section

/-- The symmetry flag as the number the Python code adds to 1 (`sym` is a
bool that arithmetic coerces to 0/1). -/
def symN (w : Wing) : ℝ := if w.symmetric then 1 else 0

/-- Segment lookup: entry `i` of the ordered segment list. -/
def seg (w : Wing) (i : ℕ) : Segment := w.segments.getD i default

/-- `span_locs[i]`: percent span location of segment `i`. -/
def span_locs (w : Wing) (i : ℕ) : ℝ := (seg w i).percent_span_location

/-- `chords[i]`: root chord percent of segment `i`. -/
def chords (w : Wing) (i : ℕ) : ℝ := (seg w i).root_chord_percent

/-- `sweeps[i]`: quarter chord sweep of segment `i`. -/
def sweeps (w : Wing) (i : ℕ) : ℝ := (seg w i).quarter_chord_sweep

/-- `t_cs[i]`: thickness to chord of segment `i`. -/
def t_cs (w : Wing) (i : ℕ) : ℝ := (seg w i).thickness_to_chord

/-- `dihedrals[i]`: outboard dihedral of segment `i`. -/
def dihedrals (w : Wing) (i : ℕ) : ℝ := (seg w i).dihedral_outboard

/-- Number of panels: N segments give N-1 panels (all the sliced numpy
arrays `span_locs[1:]-span_locs[:-1]` etc. have this length). -/
def npanels (w : Wing) : ℕ := w.segments.length - 1

/-- `semispan = span/(1+sym)`. -/
def semispan (w : Wing) : ℝ := w.projected_span / (1 + symN w)

/-- `lengths_ndim = span_locs[1:]-span_locs[:-1]`. -/
def lengths_ndim (w : Wing) (i : ℕ) : ℝ := span_locs w (i + 1) - span_locs w i

/-- `lengths_dim = lengths_ndim*semispan`. -/
def lengths_dim (w : Wing) (i : ℕ) : ℝ := lengths_ndim w i * semispan w

/-- `chords_dim = RC*chords`. -/
def chords_dim (w : Wing) (i : ℕ) : ℝ := w.root_chord * chords w i

/-- `tapers = chords[1:]/chords[:-1]`. -/
def tapers (w : Wing) (i : ℕ) : ℝ := chords w (i + 1) / chords w i

/-- `As = RC*((lengths_dim)*chords[:-1]-(chords[:-1]-chords[1:])*(lengths_dim)/2)`. -/
def As (w : Wing) (i : ℕ) : ℝ :=
  w.root_chord *
    (lengths_dim w i * chords w i - (chords w i - chords w (i + 1)) * lengths_dim w i / 2)

/-- `A_wets = 2*(1+0.2*t_cs[:-1])*As`. -/
def A_wets (w : Wing) (i : ℕ) : ℝ := 2 * (1 + 0.2 * t_cs w i) * As w i

/-- `wet_area = np.sum(A_wets)`. -/
def wet_area (w : Wing) : ℝ := ∑ i in Finset.range (npanels w), A_wets w i

/-- `ref_area = np.sum(As)*2`. -/
def ref_area (w : Wing) : ℝ := (∑ i in Finset.range (npanels w), As w i) * 2

/-- `AR = (span**2)/ref_area`. -/
def aspect_ratio_calc (w : Wing) : ℝ := w.projected_span ^ 2 / ref_area w

/-- `total_len = np.sum(lengths_dim/np.cos(dihedrals[:-1]))*(1+sym)`;
panel `i` divides by the cosine of segment `i`'s dihedral, so the last
segment's dihedral entry never enters. -/
def total_len (w : Wing) : ℝ :=
  (∑ i in Finset.range (npanels w), lengths_dim w i / Real.cos (dihedrals w i)) * (1 + symN w)

/-- `mgc = ref_area/span`. -/
def mgc (w : Wing) : ℝ := ref_area w / w.projected_span

/-- `B = (A-chords_dim[1:])/(-lengths_ndim)` with `A = chords_dim[:-1]`. -/
def B (w : Wing) (i : ℕ) : ℝ :=
  (chords_dim w i - chords_dim w (i + 1)) / (-lengths_ndim w i)

/-- The per-panel MAC integral
`((A+B*(span_locs[1:]-C))**3-(A+B*(span_locs[:-1]-C))**3)/(3*B)` with
`C = span_locs[:-1]`, patched on the untapered panels where the closed form
is indeterminate: `integral[np.isnan(integral)] = A**2*lengths_ndim`.
For strictly increasing span locations the float expression is NaN exactly
when `B = 0`, which is the guard used here. -/
def integral (w : Wing) (i : ℕ) : ℝ :=
  if B w i = 0 then chords_dim w i ^ 2 * lengths_ndim w i
  else
    ((chords_dim w i + B w i * (span_locs w (i + 1) - span_locs w i)) ^ 3 -
        (chords_dim w i + B w i * (span_locs w i - span_locs w i)) ^ 3) / (3 * B w i)

/-- `panel_mac = integral*lengths_dim*(1+sym)/As`. -/
def panel_mac (w : Wing) (i : ℕ) : ℝ :=
  integral w i * lengths_dim w i * (1 + symN w) / As w i

/-- `MAC = (semispan*(1+sym)/(ref_area))*np.sum(integral)`. -/
def MAC (w : Wing) : ℝ :=
  semispan w * (1 + symN w) / ref_area w * ∑ i in Finset.range (npanels w), integral w i

/-- `lamda = 2*mgc/RC - 1`. -/
def lamda (w : Wing) : ℝ := 2 * mgc w / w.root_chord - 1

/-- `ct = lamda*RC`. -/
def ct (w : Wing) : ℝ := lamda w * w.root_chord

/-- `t_c = np.sum(As*t_cs[:-1])/(ref_area/2)`. -/
def t_c (w : Wing) : ℝ :=
  (∑ i in Finset.range (npanels w), As w i * t_cs w i) / (ref_area w / 2)

/-- `le_sweeps = arctan((r_offsets+tan(sweeps[:-1])*lengths_dim-t_offsets)/lengths_dim)`
with `r_offsets = chords_dim[:-1]/4` and `t_offsets = chords_dim[1:]/4`. -/
def le_sweeps (w : Wing) (i : ℕ) : ℝ :=
  Real.arctan
    ((chords_dim w i / 4 + Real.tan (sweeps w i) * lengths_dim w i - chords_dim w (i + 1) / 4) /
      lengths_dim w i)

/-- `c_4_sweep = arctan(np.sum(lengths_ndim*np.tan(sweeps[:-1])))`. -/
def c_4_sweep (w : Wing) : ℝ :=
  Real.arctan (∑ i in Finset.range (npanels w), lengths_ndim w i * Real.tan (sweeps w i))

/-- `le_sweep_total = arctan(np.sum(lengths_ndim*np.tan(le_sweeps)))`. -/
def le_sweep_total (w : Wing) : ℝ :=
  Real.arctan (∑ i in Finset.range (npanels w), lengths_ndim w i * Real.tan (le_sweeps w i))

/-- `dxs = cumsum([0] ++ tan(le_sweeps[:-1])*lengths_dim[:-1])`: the x offset
of panel `i`'s root is the sum of the previous panels' chordwise projections. -/
def dxs (w : Wing) (i : ℕ) : ℝ :=
  ∑ j in Finset.range i, Real.tan (le_sweeps w j) * lengths_dim w j

/-- `dys = cumsum([0] ++ lengths_dim[:-1])`. -/
def dys (w : Wing) (i : ℕ) : ℝ := ∑ j in Finset.range i, lengths_dim w j

/-- `dzs = cumsum([0] ++ tan(dihedrals[:-2])*lengths_dim[:-1])`: panel `i`'s
vertical offset accumulates `tan(dihedrals[j])*lengths_dim[j]` over the
previous panels `j < i` (so only dihedral entries up to index N-3 enter). -/
def dzs (w : Wing) (i : ℕ) : ℝ :=
  ∑ j in Finset.range i, Real.tan (dihedrals w j) * lengths_dim w j

/-- The `segment_centroid` helper of the source, verbatim:
`cy = seg_span/6*((1+2*taper)/(1+taper))`, `cx = mac*0.25+cy*tan(le_sweep)`,
`cz = cy*tan(dihedral)`, returning `(cx+dx, cy+dy, cz+dz)`.
The argument `A` is received but unused, as in the source. -/
def segment_centroid (le_sweep seg_span dx dy dz taper A mac dihedral : ℝ) : ℝ × ℝ × ℝ :=
  let cy := seg_span / 6 * ((1 + 2 * taper) / (1 + taper))
  let cx := mac * 0.25 + cy * Real.tan le_sweep
  let cz := cy * Real.tan dihedral
  (cx + dx, cy + dy, cz + dz)

/-- `Cxys[i] = segment_centroid(le_sweeps[i], lengths_dim[i]*(1+sym), dxs[i],
dys[i], dzs[i], tapers[i], As[i], panel_mac[i], dihedrals[i])`. -/
def Cxys (w : Wing) (i : ℕ) : ℝ × ℝ × ℝ :=
  segment_centroid (le_sweeps w i) (lengths_dim w i * (1 + symN w)) (dxs w i) (dys w i)
    (dzs w i) (tapers w i) (As w i) (panel_mac w i) (dihedrals w i)

/-- `np.dot(np.transpose(Cxys), As)`: the componentwise area-weighted sum of
the panel centroids. -/
def ac_num (w : Wing) : ℝ × ℝ × ℝ :=
  (∑ i in Finset.range (npanels w), (Cxys w i).1 * As w i,
   ∑ i in Finset.range (npanels w), (Cxys w i).2.1 * As w i,
   ∑ i in Finset.range (npanels w), (Cxys w i).2.2 * As w i)

/-- `aerodynamic_center = np.dot(np.transpose(Cxys),As)/(ref_area/(1+sym))`,
followed by `aerodynamic_center[1] = 0` when the wing is symmetric. -/
def aero_center (w : Wing) : ℝ × ℝ × ℝ :=
  let d := ref_area w / (1 + symN w)
  let v := ((ac_num w).1 / d, (ac_num w).2.1 / d, (ac_num w).2.2 / d)
  if w.symmetric then (v.1, 0, v.2.2) else v

/-- `total_length = tan(le_sweep_total)*semispan + chords[-1]*RC`. -/
def total_length_calc (w : Wing) : ℝ :=
  Real.tan (le_sweep_total w) * semispan w + chords w (w.segments.length - 1) * w.root_chord

/-- The planform computation: reads the input fields, writes every derived
field back onto the same record, and returns it — the Lean rendering of the
Python function's in-place update followed by `return wing`. -/
def wing_segmented_planform (w : Wing) : Wing :=
  { w with
    reference_area := ref_area w
    wetted_area := wet_area w
    AR := aspect_ratio_calc w
    span_total := total_len w
    mean_geometric_chord := mgc w
    mean_aerodynamic_chord := MAC w
    tip_chord := ct w
    taper := lamda w
    quarter_chord_sweep := c_4_sweep w
    leading_edge_sweep := le_sweep_total w
    thickness_to_chord := t_c w
    aerodynamic_center := aero_center w
    total_length := total_length_calc w }

/-- The aerodynamic-center normalization the specification describes:
area-weighted centroid sum divided by half the reference area, with no
dependence on the symmetry flag.  Stated from the spec's words for
comparison against `aero_center` (refinement check, claim C3). -/
def aero_center_spec_half (w : Wing) : ℝ × ℝ × ℝ :=
  ((ac_num w).1 / (ref_area w / 2), (ac_num w).2.1 / (ref_area w / 2),
   (ac_num w).2.2 / (ref_area w / 2))

/-- Segment builder: span location, chord percent, quarter chord sweep,
dihedral, thickness to chord (twist 0). -/
def mkSeg (loc c sw dih tc0 : ℝ) : Segment := ⟨loc, 0, c, sw, tc0, dih⟩

/-- Wing builder with the output fields zero-initialized. -/
def mkWing (rc sp : ℝ) (sym : Bool) (ss : List Segment) : Wing :=
  ⟨rc, sp, sym, ss, 0, 0, 0, 0, 0, 0, 0, 0, 0, 0, 0, (0, 0, 0), 0⟩

/-- Replace the last segment's outboard dihedral (used to state that the
planform outputs ignore it). -/
def setLastDihedral (w : Wing) (d : ℝ) : Wing :=
  { w with
    segments :=
      w.segments.set (w.segments.length - 1)
        { w.segments.getD (w.segments.length - 1) default with dihedral_outboard := d } }

/-- The same wing re-expressed as a full-span asymmetric configuration:
projected span doubled, symmetry flag cleared, segments untouched. -/
def doubledSpan (w : Wing) : Wing :=
  { w with projected_span := 2 * w.projected_span, symmetric := false }

/-- Untapered two-segment wing with chord fraction one half (symmetric). -/
def wC1a : Wing := mkWing 2 4 true [mkSeg 0 (1 / 2) 0 0 0, mkSeg 1 (1 / 2) 0 0 0]

/-- Untapered two-segment wing with chord fraction one (asymmetric). -/
def wC1b : Wing := mkWing 2 4 false [mkSeg 0 1 0 0 0, mkSeg 1 1 0 0 0]

/-- Untapered three-segment symmetric wing (witness configuration). -/
def w3 : Wing :=
  mkWing 1 2 true [mkSeg 0 1 0 0 0, mkSeg (1 / 2) 1 0 0 0, mkSeg 1 1 0 0 0]

/-- Straight-tapered two-segment symmetric wing with zero sweep and zero
dihedral, root station chord fraction `c0` and tip chord fraction `c1`. -/
def twoSegWing (rc sp c0 c1 : ℝ) : Wing :=
  mkWing rc sp true [mkSeg 0 c0 0 0 0, mkSeg 1 c1 0 0 0]

/-- Two-segment trapezoid whose root station chord fraction is one half. -/
def wC2c : Wing := twoSegWing 1 2 (1 / 2) (1 / 4)

/-- Asymmetric unit rectangle wing. -/
def wR1 : Wing := mkWing 1 1 false [mkSeg 0 1 0 0 0, mkSeg 1 1 0 0 0]

/-- Symmetric tapered two-segment wing with nonzero thickness ratio. -/
def wSym : Wing := mkWing 1 2 true [mkSeg 0 1 0 0 (1 / 10), mkSeg 1 (1 / 2) 0 0 0]

/-- Symmetric rectangular wing used for the span-doubling comparison. -/
def w6 : Wing := mkWing 1 2 true [mkSeg 0 1 0 0 0, mkSeg 1 1 0 0 0]

/-- A wing with a single segment: no panel can be formed. -/
def w9 : Wing := mkWing 3 5 false [mkSeg 0 1 0 0 0]

end

end Planform

namespace Planform

/- Helper lemmas (shared): behaviour of the planform quantities under
`setLastDihedral` and `doubledSpan`. -/

lemma seg_setLastDihedral_span (w : Wing) (d : ℝ) (i : ℕ) :
    (seg (setLastDihedral w d) i).percent_span_location =
      (seg w i).percent_span_location := by
  unfold seg setLastDihedral
  simp only [List.getD_eq_getElem?_getD, List.getElem?_set']
  split
  · rename_i hij
    cases h' : w.segments[i]? with
    | none => simp [h']
    | some a =>
      subst hij
      simp [h', List.getD_eq_getElem?_getD]
  · rfl

lemma dihedrals_setLastDihedral (w : Wing) (d : ℝ) (i : ℕ)
    (h : i ≠ w.segments.length - 1) :
    dihedrals (setLastDihedral w d) i = dihedrals w i := by
  unfold dihedrals seg setLastDihedral
  simp only [List.getD_eq_getElem?_getD]
  rw [List.getElem?_set_ne (Ne.symm h)]

lemma npanels_setLastDihedral (w : Wing) (d : ℝ) :
    npanels (setLastDihedral w d) = npanels w := by
  simp [npanels, setLastDihedral]

lemma semispan_setLastDihedral (w : Wing) (d : ℝ) :
    semispan (setLastDihedral w d) = semispan w := rfl

lemma lengths_dim_setLastDihedral (w : Wing) (d : ℝ) (i : ℕ) :
    lengths_dim (setLastDihedral w d) i = lengths_dim w i := by
  unfold lengths_dim lengths_ndim span_locs
  rw [seg_setLastDihedral_span, seg_setLastDihedral_span, semispan_setLastDihedral]

lemma integral_doubledSpan (w : Wing) (i : ℕ) :
    integral (doubledSpan w) i = integral w i := rfl

lemma semispan_doubledSpan (w : Wing) (h : w.symmetric = true) :
    semispan (doubledSpan w) = 4 * semispan w := by
  simp [semispan, doubledSpan, symN, h]
  ring

lemma lengths_dim_doubledSpan (w : Wing) (h : w.symmetric = true) (i : ℕ) :
    lengths_dim (doubledSpan w) i = 4 * lengths_dim w i := by
  unfold lengths_dim
  rw [semispan_doubledSpan w h]
  show lengths_ndim w i * (4 * semispan w) = _
  ring

lemma As_doubledSpan (w : Wing) (h : w.symmetric = true) (i : ℕ) :
    As (doubledSpan w) i = 4 * As w i := by
  unfold As
  rw [lengths_dim_doubledSpan w h]
  show w.root_chord * (4 * lengths_dim w i * chords w i -
    (chords w i - chords w (i + 1)) * (4 * lengths_dim w i) / 2) = _
  ring

lemma ref_area_doubledSpan (w : Wing) (h : w.symmetric = true) :
    ref_area (doubledSpan w) = 4 * ref_area w := by
  unfold ref_area
  have hn : npanels (doubledSpan w) = npanels w := rfl
  rw [hn, Finset.sum_congr rfl fun i _ => As_doubledSpan w h i, ← Finset.mul_sum]
  ring

/-- C1 (counterexample): the claim "constant chord fraction forces
`mean_aerodynamic_chord = root_chord`" fails on the code.  `wC1a` has
chord fraction one half everywhere (root chord 2) and gets MAC 1, not 2;
`wC1b` has chord fraction one everywhere but is asymmetric and also gets
MAC 1, not its root chord 2. -/
theorem C1_counterexample :
    (wing_segmented_planform wC1a).mean_aerodynamic_chord ≠ wC1a.root_chord ∧
    (wing_segmented_planform wC1b).mean_aerodynamic_chord ≠ wC1b.root_chord := by
  have ha : (wing_segmented_planform wC1a).mean_aerodynamic_chord = 1 := by
    norm_num [wing_segmented_planform, MAC, ref_area, As, npanels, integral, B,
      chords_dim, chords, span_locs, lengths_ndim, lengths_dim, semispan, symN, seg,
      wC1a, mkWing, mkSeg, List.getD, Finset.sum_range_one]
  have hb : (wing_segmented_planform wC1b).mean_aerodynamic_chord = 1 := by
    norm_num [wing_segmented_planform, MAC, ref_area, As, npanels, integral, B,
      chords_dim, chords, span_locs, lengths_ndim, lengths_dim, semispan, symN, seg,
      wC1b, mkWing, mkSeg, List.getD, Finset.sum_range_one]
  refine ⟨?_, ?_⟩
  · rw [ha]; norm_num [wC1a, mkWing]
  · rw [hb]; norm_num [wC1b, mkWing]

/-- C1 (amended): for a symmetric wing whose chord fraction is the constant
`c > 0` across all segments, with span fractions running from 0 to 1, the
degenerate-panel branch fires on every panel (each `B` is zero) and
`mean_aerodynamic_chord` comes out as `c * root_chord` — the wing's constant
physical chord, hence exactly `root_chord` when `c = 1` — and never NaN. -/
theorem C1_untapered_mac (w : Wing) (c : ℝ) (hc : 0 < c) (hn : 2 ≤ w.segments.length)
    (hsym : w.symmetric = true) (hRC : 0 < w.root_chord) (hsp : 0 < w.projected_span)
    (hcf : ∀ i < w.segments.length, chords w i = c)
    (h0 : span_locs w 0 = 0) (h1 : span_locs w (w.segments.length - 1) = 1) :
    (wing_segmented_planform w).mean_aerodynamic_chord = c * w.root_chord := by
  have hlnd : ∑ i in Finset.range (npanels w), lengths_ndim w i = 1 := by
    have ht := Finset.sum_range_sub (fun i => span_locs w i) (npanels w)
    unfold lengths_ndim
    rw [ht]
    show span_locs w (w.segments.length - 1) - span_locs w 0 = 1
    rw [h0, h1]; ring
  have hint : ∀ i ∈ Finset.range (npanels w),
      integral w i = (w.root_chord * c) ^ 2 * lengths_ndim w i := by
    intro i hi
    rw [Finset.mem_range] at hi
    have hi' : i < w.segments.length := lt_of_lt_of_le hi (Nat.sub_le _ _)
    have hi1 : i + 1 < w.segments.length := by
      have : npanels w = w.segments.length - 1 := rfl
      omega
    have hci : chords w i = c := hcf i hi'
    have hci1 : chords w (i + 1) = c := hcf (i + 1) hi1
    have hB : B w i = 0 := by
      unfold B chords_dim
      rw [hci, hci1, sub_self, zero_div]
    rw [integral, if_pos hB]
    unfold chords_dim
    rw [hci]
  have hsum : ∑ i in Finset.range (npanels w), integral w i = (w.root_chord * c) ^ 2 := by
    rw [Finset.sum_congr rfl hint, ← Finset.mul_sum, hlnd, mul_one]
  have hAs : ∀ i ∈ Finset.range (npanels w),
      As w i = w.root_chord * c * semispan w * lengths_ndim w i := by
    intro i hi
    rw [Finset.mem_range] at hi
    have hi' : i < w.segments.length := lt_of_lt_of_le hi (Nat.sub_le _ _)
    have hi1 : i + 1 < w.segments.length := by
      have : npanels w = w.segments.length - 1 := rfl
      omega
    unfold As lengths_dim
    rw [hcf i hi', hcf (i + 1) hi1, sub_self]
    ring
  have href : ref_area w = 2 * (w.root_chord * c * semispan w) := by
    unfold ref_area
    rw [Finset.sum_congr rfl hAs, ← Finset.mul_sum, hlnd]
    ring
  have hsymN : symN w = 1 := by simp [symN, hsym]
  have hss : semispan w = w.projected_span / 2 := by
    rw [semispan, hsymN]; norm_num
  show MAC w = c * w.root_chord
  rw [MAC, hsum, href, hsymN, hss]
  have hRC' : w.root_chord ≠ 0 := ne_of_gt hRC
  have hc' : c ≠ 0 := ne_of_gt hc
  have hsp' : w.projected_span ≠ 0 := ne_of_gt hsp
  field_simp
  ring

/-- C1 (witness): the amended statement applied to the untapered
three-segment symmetric wing `w3` (chord fraction constantly 1). -/
theorem C1_untapered_mac_witness :
    (0:ℝ) < 1 ∧ 2 ≤ w3.segments.length ∧ w3.symmetric = true ∧
    (0:ℝ) < w3.root_chord ∧ (0:ℝ) < w3.projected_span ∧
    (∀ i < w3.segments.length, chords w3 i = 1) ∧
    span_locs w3 0 = 0 ∧ span_locs w3 (w3.segments.length - 1) = 1 ∧
    (wing_segmented_planform w3).mean_aerodynamic_chord = 1 * w3.root_chord := by
  have hcf : ∀ i < w3.segments.length, chords w3 i = 1 := by
    intro i hi
    have hi3 : i < 3 := by simpa [w3, mkWing] using hi
    interval_cases i <;>
      norm_num [chords, seg, w3, mkWing, mkSeg, List.getD]
  have h0 : span_locs w3 0 = 0 := by
    norm_num [span_locs, seg, w3, mkWing, mkSeg, List.getD]
  have h1 : span_locs w3 (w3.segments.length - 1) = 1 := by
    norm_num [span_locs, seg, w3, mkWing, mkSeg, List.getD]
  refine ⟨by norm_num, by norm_num [w3, mkWing], rfl, by norm_num [w3, mkWing],
    by norm_num [w3, mkWing], hcf, h0, h1, ?_⟩
  exact C1_untapered_mac w3 1 (by norm_num) (by norm_num [w3, mkWing]) rfl
    (by norm_num [w3, mkWing]) (by norm_num [w3, mkWing]) hcf h0 h1

/-- C2 (counterexample): the claimed closed forms use the input `root_chord`
where the code uses the root-station chord `chords[0]*root_chord`.  On the
two-segment trapezoid `wC2c` (chord fractions 1/2 and 1/4, root chord 1,
span 2, symmetric) the code returns `reference_area = 3/4` and
`MAC = 7/18`, while the claim predicts `5/4` (or `5/2` with the doubling
read as an extra factor) and `7/9`. -/
theorem C2_counterexample :
    (wing_segmented_planform wC2c).reference_area ≠
        semispan wC2c * (wC2c.root_chord + 1 / 4 * wC2c.root_chord) ∧
    (wing_segmented_planform wC2c).reference_area ≠
        2 * (semispan wC2c * (wC2c.root_chord + 1 / 4 * wC2c.root_chord)) ∧
    (wing_segmented_planform wC2c).mean_aerodynamic_chord ≠
        2 / 3 * wC2c.root_chord * (1 + (1 / 2 : ℝ) + (1 / 2 : ℝ) ^ 2) / (1 + (1 / 2 : ℝ)) := by
  have hrefv : (wing_segmented_planform wC2c).reference_area = 3 / 4 := by
    norm_num [wing_segmented_planform, ref_area, As, npanels, chords_dim, chords,
      span_locs, lengths_ndim, lengths_dim, semispan, symN, seg, wC2c, twoSegWing,
      mkWing, mkSeg, List.getD, Finset.sum_range_one]
  have hmacv : (wing_segmented_planform wC2c).mean_aerodynamic_chord = 7 / 18 := by
    norm_num [wing_segmented_planform, MAC, ref_area, As, npanels, integral, B,
      chords_dim, chords, span_locs, lengths_ndim, lengths_dim, semispan, symN, seg,
      wC2c, twoSegWing, mkWing, mkSeg, List.getD, Finset.sum_range_one]
  have hss : semispan wC2c = 1 := by
    norm_num [semispan, symN, wC2c, twoSegWing, mkWing]
  have hrc : wC2c.root_chord = 1 := by norm_num [wC2c, twoSegWing, mkWing]
  refine ⟨?_, ?_, ?_⟩
  · rw [hrefv, hss, hrc]; norm_num
  · rw [hrefv, hss, hrc]; norm_num
  · rw [hmacv, hrc]; norm_num

/-- C2 (amended): for the two-segment straight trapezoid with zero sweep and
zero dihedral, symmetric, root-station chord fraction `c0 > 0` and tip chord
fraction `c1 > 0`, the code's reference area is the trapezoid area
`semispan * (c0*RC + c1*RC)` (root-station chord `c0*RC`, tip chord `c1*RC`,
full-wing value), and its MAC is the standard two-term formula
`(2/3)*(c0*RC)*(1+l+l^2)/(1+l)` built on the root-station chord, with taper
ratio `l = c1/c0`.  The original claim's formulas are recovered exactly when
`c0 = 1`. -/
theorem C2_trapezoid (rc sp c0 c1 : ℝ) (hrc : 0 < rc) (hsp : 0 < sp)
    (hc0 : 0 < c0) (hc1 : 0 < c1) :
    (wing_segmented_planform (twoSegWing rc sp c0 c1)).reference_area
        = semispan (twoSegWing rc sp c0 c1) * (c0 * rc + c1 * rc) ∧
    (wing_segmented_planform (twoSegWing rc sp c0 c1)).mean_aerodynamic_chord
        = 2 / 3 * (c0 * rc) * (1 + c1 / c0 + (c1 / c0) ^ 2) / (1 + c1 / c0) := by
  have hrc' : rc ≠ 0 := ne_of_gt hrc
  have hsp' : sp ≠ 0 := ne_of_gt hsp
  have hc0' : c0 ≠ 0 := ne_of_gt hc0
  have hc1' : c1 ≠ 0 := ne_of_gt hc1
  have hcc : c0 + c1 ≠ 0 := ne_of_gt (by positivity)
  constructor
  · show ref_area (twoSegWing rc sp c0 c1) = _
    norm_num [ref_area, As, npanels, chords, span_locs, lengths_ndim, lengths_dim,
      semispan, symN, seg, twoSegWing, mkWing, mkSeg, List.getD, Finset.sum_range_one]
    ring
  · show MAC (twoSegWing rc sp c0 c1) = _
    have hnp : npanels (twoSegWing rc sp c0 c1) = 1 := by
      norm_num [npanels, twoSegWing, mkWing]
    by_cases hd : c0 = c1
    · subst hd
      have hB : B (twoSegWing rc sp c0 c0) 0 = 0 := by
        norm_num [B, chords_dim, chords, span_locs, lengths_ndim, seg,
          twoSegWing, mkWing, mkSeg, List.getD]
      rw [MAC, hnp, Finset.sum_range_one, integral, if_pos hB]
      norm_num [ref_area, As, npanels, chords, chords_dim, span_locs, lengths_ndim,
        lengths_dim, semispan, symN, seg, twoSegWing, mkWing, mkSeg, List.getD,
        Finset.sum_range_one]
      field_simp
      ring
    · have hBval : B (twoSegWing rc sp c0 c1) 0 = rc * c1 - rc * c0 := by
        norm_num [B, chords_dim, chords, span_locs, lengths_ndim, seg,
          twoSegWing, mkWing, mkSeg, List.getD]
        ring
      have h3B : rc * c1 - rc * c0 ≠ 0 := by
        rw [show rc * c1 - rc * c0 = rc * (c1 - c0) by ring]
        exact mul_ne_zero hrc' (sub_ne_zero.mpr fun hcon => hd hcon.symm)
      have hB : B (twoSegWing rc sp c0 c1) 0 ≠ 0 := by rw [hBval]; exact h3B
      have e1 : chords_dim (twoSegWing rc sp c0 c1) 0 = rc * c0 := by
        norm_num [chords_dim, chords, seg, twoSegWing, mkWing, mkSeg, List.getD]
      have e3 : span_locs (twoSegWing rc sp c0 c1) 1 = 1 := by
        norm_num [span_locs, seg, twoSegWing, mkWing, mkSeg, List.getD]
      have e4 : span_locs (twoSegWing rc sp c0 c1) 0 = 0 := by
        norm_num [span_locs, seg, twoSegWing, mkWing, mkSeg, List.getD]
      have e5 : ref_area (twoSegWing rc sp c0 c1) = rc * (sp / 2) * (c0 + c1) := by
        norm_num [ref_area, As, npanels, chords, span_locs, lengths_ndim, lengths_dim,
          semispan, symN, seg, twoSegWing, mkWing, mkSeg, List.getD, Finset.sum_range_one]
        ring
      have e6 : semispan (twoSegWing rc sp c0 c1) = sp / 2 := by
        norm_num [semispan, symN, twoSegWing, mkWing]
      have e7 : symN (twoSegWing rc sp c0 c1) = 1 := by
        norm_num [symN, twoSegWing, mkWing]
      rw [MAC, hnp, Finset.sum_range_one, integral, if_neg hB, hBval, e1, e3, e4, e5,
        e6, e7]
      have h1l : 1 + c1 / c0 ≠ 0 := by positivity
      field_simp
      ring

/-- C2 (witness): the amended statement applied with root chord 1, span 2,
chord fractions 1 and 1/2. -/
theorem C2_trapezoid_witness :
    (0:ℝ) < 1 ∧ (0:ℝ) < 2 ∧ (0:ℝ) < 1 / 2 ∧
    ((wing_segmented_planform (twoSegWing 1 2 1 (1 / 2))).reference_area
        = semispan (twoSegWing 1 2 1 (1 / 2)) * (1 * 1 + 1 / 2 * 1) ∧
      (wing_segmented_planform (twoSegWing 1 2 1 (1 / 2))).mean_aerodynamic_chord
        = 2 / 3 * (1 * 1) * (1 + (1 / 2) / 1 + ((1 / 2) / 1) ^ 2) / (1 + (1 / 2) / 1)) :=
  ⟨by norm_num, by norm_num, by norm_num,
    C2_trapezoid 1 2 1 (1 / 2) (by norm_num) (by norm_num) (by norm_num) (by norm_num)⟩

/-- C3 (counterexample): on the asymmetric rectangle `wR1` the code divides
the area-weighted centroid sum by `ref_area` (since `1+sym = 1`), giving
aerodynamic center `(1/8, 1/8, 0)`, while the claim's normalization by half
the reference area would give `(1/4, 1/4, 0)`. -/
theorem C3_counterexample :
    (wing_segmented_planform wR1).aerodynamic_center ≠ aero_center_spec_half wR1 := by
  have h1 : (wing_segmented_planform wR1).aerodynamic_center = (1 / 8, 1 / 8, 0) := by
    norm_num [wing_segmented_planform, aero_center, ac_num, Cxys, segment_centroid,
      panel_mac, tapers, As, npanels, integral, B, chords_dim, chords, span_locs,
      lengths_ndim, lengths_dim, semispan, symN, seg, wR1, mkWing, mkSeg, List.getD,
      Finset.sum_range_one, Finset.sum_range_zero, dxs, dys, dzs, le_sweeps, sweeps,
      dihedrals, ref_area, Real.tan_zero, Real.arctan_zero]
  have h2 : aero_center_spec_half wR1 = (1 / 4, 1 / 4, 0) := by
    norm_num [aero_center_spec_half, ac_num, Cxys, segment_centroid, panel_mac,
      tapers, As, npanels, integral, B, chords_dim, chords, span_locs, lengths_ndim,
      lengths_dim, semispan, symN, seg, wR1, mkWing, mkSeg, List.getD,
      Finset.sum_range_one, Finset.sum_range_zero, dxs, dys, dzs, le_sweeps, sweeps,
      dihedrals, ref_area, Real.tan_zero, Real.arctan_zero]
  rw [h1, h2]
  norm_num [Prod.ext_iff]

/-- C3 (amended): the normalizer is `ref_area/(1+sym)`: for a symmetric wing
the area-weighted centroid sum is divided by half the reference area and the
y component is then forced to 0; for an asymmetric wing it is divided by the
full reference area and no component is zeroed. -/
theorem C3_ac_normalization (w : Wing) :
    (wing_segmented_planform w).aerodynamic_center =
      if w.symmetric then
        ((ac_num w).1 / (ref_area w / 2), 0, (ac_num w).2.2 / (ref_area w / 2))
      else
        ((ac_num w).1 / ref_area w, (ac_num w).2.1 / ref_area w,
         (ac_num w).2.2 / ref_area w) := by
  cases h : w.symmetric
  · simp [wing_segmented_planform, aero_center, symN, h]
  · simp [wing_segmented_planform, aero_center, symN, h]
    norm_num

/-- C4: `spans.total` is `(sum over panels of lengths_dim[i]/cos(dihedrals[i]))
* (1+sym)`: one dihedral per panel, indices 0 through N-2, so the outermost
panel uses the second-to-last dihedral entry and the last segment's dihedral
entry is excluded — replacing it changes nothing. -/
theorem C4_total_span (w : Wing) :
    (wing_segmented_planform w).span_total =
      (∑ i in Finset.range (w.segments.length - 1),
        lengths_dim w i / Real.cos (dihedrals w i)) * (1 + symN w) ∧
    ∀ d : ℝ, (wing_segmented_planform (setLastDihedral w d)).span_total =
      (wing_segmented_planform w).span_total := by
  refine ⟨rfl, fun d => ?_⟩
  show total_len (setLastDihedral w d) = total_len w
  unfold total_len
  rw [npanels_setLastDihedral]
  have hsym : symN (setLastDihedral w d) = symN w := rfl
  rw [hsym]
  congr 1
  refine Finset.sum_congr rfl fun i hi => ?_
  rw [Finset.mem_range] at hi
  rw [lengths_dim_setLastDihedral, dihedrals_setLastDihedral]
  exact Nat.ne_of_lt hi

/-- C5: whenever the symmetry flag is set, the y component of the computed
aerodynamic center is overwritten with 0. -/
theorem C5_symmetric_ac_y (w : Wing) (h : w.symmetric = true) :
    ((wing_segmented_planform w).aerodynamic_center).2.1 = 0 := by
  simp [wing_segmented_planform, aero_center, h]

/-- C5 (witness): applied to the symmetric tapered wing `wSym`. -/
theorem C5_symmetric_ac_y_witness :
    wSym.symmetric = true ∧ ((wing_segmented_planform wSym).aerodynamic_center).2.1 = 0 :=
  ⟨rfl, C5_symmetric_ac_y wSym rfl⟩

/-- C6 (counterexample): the claimed symmetry invariant fails.  For the
symmetric rectangle `w6` (span 2, unit chord) the code gives reference area
2 and MAC 1; re-running on the doubled full-span asymmetric equivalent
(span 4, same chords) gives reference area 8 and MAC 1/2. -/
theorem C6_counterexample :
    (wing_segmented_planform (doubledSpan w6)).reference_area ≠
      (wing_segmented_planform w6).reference_area ∧
    (wing_segmented_planform (doubledSpan w6)).mean_aerodynamic_chord ≠
      (wing_segmented_planform w6).mean_aerodynamic_chord := by
  have hr : (wing_segmented_planform (doubledSpan w6)).reference_area = 8 := by
    norm_num [wing_segmented_planform, doubledSpan, ref_area, As, npanels, chords_dim,
      chords, span_locs, lengths_ndim, lengths_dim, semispan, symN, seg, w6,
      mkWing, mkSeg, List.getD, Finset.sum_range_one]
  have hr' : (wing_segmented_planform w6).reference_area = 2 := by
    norm_num [wing_segmented_planform, ref_area, As, npanels, chords_dim, chords,
      span_locs, lengths_ndim, lengths_dim, semispan, symN, seg, w6,
      mkWing, mkSeg, List.getD, Finset.sum_range_one]
  have hm : (wing_segmented_planform (doubledSpan w6)).mean_aerodynamic_chord = 1 / 2 := by
    norm_num [wing_segmented_planform, doubledSpan, MAC, ref_area, As, npanels,
      integral, B, chords_dim, chords, span_locs, lengths_ndim, lengths_dim, semispan,
      symN, seg, w6, mkWing, mkSeg, List.getD, Finset.sum_range_one]
  have hm' : (wing_segmented_planform w6).mean_aerodynamic_chord = 1 := by
    norm_num [wing_segmented_planform, MAC, ref_area, As, npanels, integral, B,
      chords_dim, chords, span_locs, lengths_ndim, lengths_dim, semispan, symN, seg,
      w6, mkWing, mkSeg, List.getD, Finset.sum_range_one]
  rw [hr, hr', hm, hm']
  norm_num

/-- C6 (amended): for a symmetric wing, recomputing on the doubled full-span
asymmetric equivalent preserves the aspect ratio but quadruples the
reference area and halves the MAC — consequences of the unconditional
`ref_area = 2*sum(As)` doubling. -/
theorem C6_doubled_span_relation (w : Wing) (h : w.symmetric = true) :
    (wing_segmented_planform (doubledSpan w)).AR = (wing_segmented_planform w).AR ∧
    (wing_segmented_planform (doubledSpan w)).reference_area =
      4 * (wing_segmented_planform w).reference_area ∧
    (wing_segmented_planform (doubledSpan w)).mean_aerodynamic_chord =
      (wing_segmented_planform w).mean_aerodynamic_chord / 2 := by
  refine ⟨?_, ref_area_doubledSpan w h, ?_⟩
  · show aspect_ratio_calc (doubledSpan w) = aspect_ratio_calc w
    unfold aspect_ratio_calc
    rw [ref_area_doubledSpan w h]
    show (2 * w.projected_span) ^ 2 / (4 * ref_area w) = _
    rw [show (2 * w.projected_span) ^ 2 = 4 * w.projected_span ^ 2 by ring,
      mul_div_mul_left _ _ (by norm_num : (4:ℝ) ≠ 0)]
  · show MAC (doubledSpan w) = MAC w / 2
    unfold MAC
    have hn : npanels (doubledSpan w) = npanels w := rfl
    have hsum : ∑ i in Finset.range (npanels (doubledSpan w)), integral (doubledSpan w) i
        = ∑ i in Finset.range (npanels w), integral w i := by
      rw [hn]; exact Finset.sum_congr rfl fun i _ => integral_doubledSpan w i
    rw [hsum, ref_area_doubledSpan w h, semispan_doubledSpan w h]
    have h1 : symN (doubledSpan w) = 0 := by simp [symN, doubledSpan]
    have h2 : symN w = 1 := by simp [symN, h]
    rw [h1, h2]
    rw [show (4 : ℝ) * semispan w * (1 + 0) / (4 * ref_area w) =
        semispan w / ref_area w from by
      rw [show (4 : ℝ) * semispan w * (1 + 0) = 4 * semispan w by ring,
        mul_div_mul_left _ _ (by norm_num : (4:ℝ) ≠ 0)]]
    ring

/-- C6 (witness): the amended relation applied to the symmetric rectangle. -/
theorem C6_doubled_span_relation_witness :
    w6.symmetric = true ∧
    ((wing_segmented_planform (doubledSpan w6)).AR = (wing_segmented_planform w6).AR ∧
     (wing_segmented_planform (doubledSpan w6)).reference_area =
       4 * (wing_segmented_planform w6).reference_area ∧
     (wing_segmented_planform (doubledSpan w6)).mean_aerodynamic_chord =
       (wing_segmented_planform w6).mean_aerodynamic_chord / 2) :=
  ⟨rfl, C6_doubled_span_relation w6 rfl⟩

/-- C7: the reference area is exactly twice the sum of the one-side
trapezoidal panel areas, with the doubling applied whatever the symmetry
flag says. -/
theorem C7_reference_area (w : Wing) :
    (wing_segmented_planform w).reference_area =
      2 * ∑ i in Finset.range (w.segments.length - 1),
        w.root_chord * (lengths_dim w i * chords w i
          - (chords w i - chords w (i + 1)) * lengths_dim w i / 2) := by
  simp only [wing_segmented_planform, ref_area, As, npanels]
  ring

/-- C8: the computation leaves every input field (root chord, projected
span, symmetry flag, the whole segment list) untouched, and running it a
second time reproduces the same record: it is a pure, idempotent function
of its inputs. -/
theorem C8_pure_idempotent (w : Wing) :
    (wing_segmented_planform w).root_chord = w.root_chord ∧
    (wing_segmented_planform w).projected_span = w.projected_span ∧
    (wing_segmented_planform w).symmetric = w.symmetric ∧
    (wing_segmented_planform w).segments = w.segments ∧
    wing_segmented_planform (wing_segmented_planform w) = wing_segmented_planform w :=
  ⟨rfl, rfl, rfl, rfl, rfl⟩

/-- C9: on a one-segment wing the function performs no validation and
signals no error: no panel is formed, the reference area comes out 0, and
the aspect ratio is the division of the squared span by that zero (IEEE
floats make it non-finite; the real-number model makes the zero denominator
explicit). -/
theorem C9_no_validation :
    w9.segments.length = 1 ∧ npanels w9 = 0 ∧
    (wing_segmented_planform w9).reference_area = 0 ∧
    (wing_segmented_planform w9).AR = (5 : ℝ) ^ 2 / 0 := by
  refine ⟨by norm_num [w9, mkWing], by norm_num [npanels, w9, mkWing], ?_, ?_⟩
  · norm_num [wing_segmented_planform, ref_area, npanels, w9, mkWing,
      Finset.sum_range_zero]
  · norm_num [wing_segmented_planform, aspect_ratio_calc, ref_area, npanels, w9,
      mkWing, Finset.sum_range_zero]

/-- C10: whenever the reference area is nonzero, the outputs satisfy
`wetted_area = reference_area * (1 + 0.2 * thickness_to_chord)` exactly:
the per-panel wetted contributions sum to the reference area plus the
area-weighted thickness correction. -/
theorem C10_wetted_area (w : Wing) (h : ref_area w ≠ 0) :
    (wing_segmented_planform w).wetted_area =
      (wing_segmented_planform w).reference_area *
        (1 + 0.2 * (wing_segmented_planform w).thickness_to_chord) := by
  show wet_area w = ref_area w * (1 + 0.2 * t_c w)
  have hsplit : wet_area w = ref_area w
      + 0.4 * ∑ i in Finset.range (npanels w), As w i * t_cs w i := by
    unfold wet_area A_wets ref_area
    rw [Finset.sum_congr rfl
      (fun i _ => show 2 * (1 + 0.2 * t_cs w i) * As w i
        = As w i * 2 + 0.4 * (As w i * t_cs w i) by ring)]
    rw [Finset.sum_add_distrib, ← Finset.sum_mul, ← Finset.mul_sum]
  rw [hsplit, t_c]
  field_simp
  ring

/-- C10 (witness): the relation applied to the symmetric tapered wing
`wSym`, whose reference area is 3/2. -/
theorem C10_wetted_area_witness :
    ref_area wSym ≠ 0 ∧
    (wing_segmented_planform wSym).wetted_area =
      (wing_segmented_planform wSym).reference_area *
        (1 + 0.2 * (wing_segmented_planform wSym).thickness_to_chord) := by
  have h : ref_area wSym ≠ 0 := by
    norm_num [ref_area, As, npanels, chords, span_locs, lengths_ndim, lengths_dim,
      semispan, symN, seg, wSym, mkWing, mkSeg, List.getD, Finset.sum_range_one]
  exact ⟨h, C10_wetted_area wSym h⟩

end Planform
